import Mathlib

/-!
Shallow embedding of the CTRL-E editing backend's project-lifecycle core:
the Mongoose `Project` model (src/models/Project.js) and the transition
operations of the client, editor and admin controllers.  Mongo documents
become Lean structures; ObjectIds become Nat; Dates become Nat millisecond
timestamps; JS `undefined`/optional fields become Option; fallible HTTP
handlers become Except.  Fields of the schema never touched by the
modelled operations (file metadata, drive folder ids, voice messages,
priority, client contact data) are omitted.
-/

namespace CtrlE

/-- The `status` enumeration of the project schema. -/
inductive Status where
  | uploaded
  | assigned
  | reassigned
  | in_progress
  | completed
  | under_review
  | approved
  | revision_requested
  | revision_in_progress
  | client_reedit
  | delivered
deriving DecidableEq, Repr

/-- The `status` enumeration of a `clientFeedback` entry
(`enum: ['approved', 'revision_requested']`). -/
inductive FeedbackStatus where
  | approved
  | revision_requested
deriving DecidableEq, Repr

/-- The `action` values accepted by the admin review route
(`isIn(['approve', 'request_revision', 'reassign'])`). -/
inductive ReviewAction where
  | approve
  | request_revision
  | reassign
deriving DecidableEq, Repr

/-- The `type` enumeration of an `adminComments` entry. -/
inductive CommentType where
  | assignment
  | reassignment
  | review
  | general
deriving DecidableEq, Repr

/-- The `status` enumeration of an `editedVersions` entry
(`enum: ['pending', 'approved', 'rejected']`). -/
inductive VersionStatus where
  | pending
  | approved
  | rejected
deriving DecidableEq, Repr

/-- One entry of `editedVersions`: an uploaded deliverable version. -/
structure Version where
  version : Nat
  filename : String
  driveFileId : String
  driveFileUrl : String
  notes : String
  status : VersionStatus
deriving DecidableEq, Repr

/-- One entry of `clientFeedback`. -/
structure Feedback where
  message : String
  version : Nat
  status : FeedbackStatus
  rating : Option Nat
  satisfied : Option Bool
  reEditRequested : Bool
  reEditComments : Option String
deriving DecidableEq, Repr

/-- One entry of `timeline`; `user` is null for client-originated actions. -/
structure TimelineEntry where
  action : String
  user : Option Nat
  timestamp : Nat
  notes : String
deriving DecidableEq, Repr

/-- One entry of `adminComments`; the schema's `type` field is `ctype` here
(`type` is a Lean keyword). -/
structure AdminComment where
  comment : Option String
  date : Nat
  ctype : CommentType
deriving DecidableEq, Repr

/-- The project aggregate (workflow-relevant fields of the schema). -/
structure Project where
  status : Status
  progress : Nat
  assignedEditor : Option Nat
  assignedDate : Option Nat
  editorDeadlineHours : Nat
  editorDeadline : Option Nat
  isEditorDeadlineExceeded : Bool
  editedVersions : List Version
  clientFeedback : List Feedback
  timeline : List TimelineEntry
  adminComments : List AdminComment
  adminNotes : Option String
  dueDate : Option Nat
  publicId : String
deriving DecidableEq, Repr

/-- Error taxonomy of the handlers: 404 not-found, 400 validation,
400 invalid-state ("not ready for ..."), 500 dependency failure. -/
inductive Err where
  | notFound
  | validation
  | invalidState
  | dependency
deriving DecidableEq, Repr

/-- JS truthiness of an optional boolean request field. -/
def truthy : Option Bool → Bool
  | some b => b
  | none => false

/-- JS `s || d` on an optional string: the empty string is falsy. -/
def jsOrStr (s : Option String) (d : String) : String :=
  match s with
  | some v => if v = "" then d else v
  | none => d

/-- JS `n || d` on an optional number: 0 is falsy. -/
def jsOrNat (n : Option Nat) (d : Nat) : Nat :=
  match n with
  | some v => if v = 0 then d else v
  | none => d

/-- The enum string of a status, as interpolated into timeline text. -/
def statusText : Status → String
  | .uploaded => "uploaded"
  | .assigned => "assigned"
  | .reassigned => "reassigned"
  | .in_progress => "in_progress"
  | .completed => "completed"
  | .under_review => "under_review"
  | .approved => "approved"
  | .revision_requested => "revision_requested"
  | .revision_in_progress => "revision_in_progress"
  | .client_reedit => "client_reedit"
  | .delivered => "delivered"

/-- `projectSchema.methods.addTimelineEntry`: push one timeline record. -/
def addTimelineEntry (p : Project) (action : String) (user : Option Nat)
    (notes : String) (now : Nat) : Project :=
  { p with timeline := p.timeline ++
      [{ action := action, user := user, timestamp := now, notes := notes }] }

/-- The reducer of `getLatestVersion`:
`(latest, current) => current.version > latest.version ? current : latest`. -/
def pickLater (latest current : Version) : Version :=
  if current.version > latest.version then current else latest

/-- `projectSchema.methods.getLatestVersion`: null on empty, else
`reduce(pickLater)` (fold from the first element). -/
def getLatestVersion (p : Project) : Option Version :=
  match p.editedVersions with
  | [] => none
  | v :: vs => some (vs.foldl pickLater v)

/-- The next version number the upload handler assigns:
`latestVersion ? latestVersion.version + 1 : 1`. -/
def nextVersionNumber (p : Project) : Nat :=
  match getLatestVersion p with
  | some lv => lv.version + 1
  | none => 1

/-- `projectSchema.methods.checkEditorDeadline`: returns the exceeded flag
and the (possibly latched) project.  Guard: falsy `editorDeadline` or
falsy `assignedEditor` short-circuits to false without touching state. -/
def checkEditorDeadline (p : Project) (now : Nat) : Bool × Project :=
  match p.editorDeadline, p.assignedEditor with
  | some dl, some _ =>
    let isExceeded := decide (now > dl ∧
      p.status ∈ [Status.assigned, Status.reassigned, Status.in_progress])
    if isExceeded && !p.isEditorDeadlineExceeded then
      (isExceeded, { p with isEditorDeadlineExceeded := true })
    else
      (isExceeded, p)
  | _, _ => (false, p)

/-- The feedback request body accepted by POST /api/client/feedback, after
route validation (`status` restricted to the two enum values; optional
fields may be absent). -/
structure FeedbackReq where
  feedback : String
  status : FeedbackStatus
  version : Option Nat
  rating : Option Nat
  satisfied : Option Bool
  reEditRequested : Bool
  reEditComments : Option String
deriving DecidableEq, Repr

/-- `clientController.submitFeedback`: rejects unless the project status is
`approved` or `completed`; pushes the feedback entry; then routes the
status by the feedback's `status`/`satisfied`/`reEditRequested` fields,
appending one timeline entry per taken branch. -/
def submitFeedback (p : Project) (req : FeedbackReq) (now : Nat) :
    Except Err Project :=
  if p.status ∉ [Status.approved, Status.completed] then
    .error .invalidState
  else
    let fb : Feedback :=
      { message := req.feedback
        status := req.status
        version := jsOrNat req.version
          (jsOrNat ((getLatestVersion p).map (fun v => v.version)) 1)
        rating := req.rating
        satisfied := req.satisfied
        reEditRequested := req.reEditRequested
        reEditComments := req.reEditComments }
    let p1 := { p with clientFeedback := p.clientFeedback ++ [fb] }
    if req.status = FeedbackStatus.approved ∧ truthy req.satisfied = true then
      .ok (addTimelineEntry { p1 with status := Status.delivered }
        "Client approved the project" none req.feedback now)
    else if req.status = FeedbackStatus.revision_requested ∨
        truthy req.satisfied = false then
      if req.reEditRequested then
        .ok (addTimelineEntry { p1 with status := Status.client_reedit }
          "Client requested re-edit" none
          (jsOrStr req.reEditComments req.feedback) now)
      else
        .ok (addTimelineEntry { p1 with status := Status.revision_requested }
          "Client requested revisions" none req.feedback now)
    else
      .ok p1

/-- The target statuses the editor status-update path accepts: the route's
`isIn` validation and the controller's own `validStatuses` list coincide. -/
def validStatuses : List Status :=
  [Status.assigned, Status.in_progress, Status.completed,
   Status.revision_in_progress]

/-- `editorController.updateProjectStatus`: route validation rejects a
target outside `validStatuses`; the project must be assigned to the
requesting editor; then the status is set, the progress (when sent) is
clamped to [0,100], and one timeline entry is appended.  The current
(source) status is never inspected. -/
def updateProjectStatus (p : Project) (editorId : Nat) (status : Status)
    (progress : Option Int) (notes : Option String) (now : Nat) :
    Except Err Project :=
  if status ∉ validStatuses then .error .validation
  else if p.assignedEditor ≠ some editorId then .error .notFound
  else
    let oldStatus := p.status
    let p1 := { p with status := status }
    let p2 := match progress with
      | some pr => { p1 with progress := (max 0 (min 100 pr)).toNat }
      | none => p1
    .ok (addTimelineEntry p2
      ("Status updated from " ++ statusText oldStatus ++ " to " ++
        statusText status)
      (some editorId)
      (jsOrStr notes ("Progress: " ++ toString p2.progress ++ "%")) now)

/-- The uploaded file's metadata as seen by the handler. -/
structure FileInfo where
  originalname : String
deriving DecidableEq, Repr

/-- The object-store result (`driveUpload.uploadedFile`). -/
structure DriveUpload where
  id : String
  webViewLink : String
deriving DecidableEq, Repr

/-- `editorController.uploadEditedVersion`: no file is a 400; the project
must be assigned to the editor; the next version number is
latest.version + 1 (1 when empty); the Drive upload must succeed before
anything is recorded (its failure is a 500 with the project untouched);
on success the version is appended, status forced to `completed`,
progress to 100, and one timeline entry appended. -/
def uploadEditedVersion (p : Project) (editorId : Nat)
    (file : Option FileInfo) (notes : Option String)
    (drive : Option DriveUpload) (now : Nat) : Except Err Project :=
  match file with
  | none => .error .validation
  | some f =>
    if p.assignedEditor ≠ some editorId then .error .notFound
    else
      let newVersionNumber := nextVersionNumber p
      match drive with
      | none => .error .dependency
      | some d =>
        let p1 := { p with
          editedVersions := p.editedVersions ++
            [{ version := newVersionNumber
               filename := f.originalname
               driveFileId := d.id
               driveFileUrl := d.webViewLink
               notes := jsOrStr notes ""
               status := VersionStatus.pending }]
          status := Status.completed
          progress := 100 }
        .ok (addTimelineEntry p1
          ("Uploaded edited version v" ++ toString newVersionNumber)
          (some editorId) ((notes).getD "") now)

/-- `adminController.reviewProject`: only a `completed` project may be
reviewed; `approve` sets `approved`, `request_revision` sets
`revision_requested`, `reassign` keeps the status; every branch pushes
one adminComment of type `review` and one timeline entry. -/
def reviewProject (p : Project) (adminId : Nat) (action : ReviewAction)
    (notes : Option String) (now : Nat) : Except Err Project :=
  if p.status ≠ Status.completed then .error .invalidState
  else
    match action with
    | .approve =>
      let p1 := { p with
        status := Status.approved
        adminComments := p.adminComments ++
          [{ comment := some (jsOrStr notes "Project approved by admin")
             date := now, ctype := CommentType.review }] }
      .ok (addTimelineEntry p1
        "Project approved by admin - Ready for client download"
        (some adminId) ((notes).getD "") now)
    | .request_revision =>
      let p1 := { p with
        status := Status.revision_requested
        adminComments := p.adminComments ++
          [{ comment := notes, date := now, ctype := CommentType.review }] }
      .ok (addTimelineEntry p1 "Admin requested revisions from editor"
        (some adminId) ((notes).getD "") now)
    | .reassign =>
      let p1 := { p with
        adminComments := p.adminComments ++
          [{ comment :=
               some (jsOrStr notes "Project marked for reassignment during review")
             date := now, ctype := CommentType.review }] }
      .ok (addTimelineEntry p1
        "Admin marked project for reassignment during review"
        (some adminId) ((notes).getD "") now)

/-- The assignment request body of POST /api/admin/assign-editor (after the
editor-existence checks, which are outside the state machine). -/
structure AssignReq where
  editorId : Nat
  notes : Option String
  dueDate : Option Nat
  comments : Option String
  isReassignment : Bool
  deadlineHours : Option Nat
deriving DecidableEq, Repr

/-- `isActualReassignment` of `adminController.assignProjectToEditor`:
the declared flag and a previous editor different from the new one. -/
def isActualReassignment (p : Project) (req : AssignReq) : Bool :=
  req.isReassignment &&
    (match p.assignedEditor with
     | some prev => prev != req.editorId
     | none => false)

/-- `adminController.assignProjectToEditor`: sets editor, assignedDate and
status (`reassigned` on an actual reassignment, else `assigned`);
recomputes the deadline from now with `deadlineHours || 24`; resets the
exceeded latch; optionally records dueDate/adminNotes/adminComments; and
appends one timeline entry. -/
def assignProjectToEditor (p : Project) (adminId : Nat) (req : AssignReq)
    (editorName : String) (prevName : Option String) (now : Nat) : Project :=
  let actual := isActualReassignment p req
  let hours := jsOrNat req.deadlineHours 24
  let p1 := { p with
    assignedEditor := some req.editorId
    assignedDate := some now
    status := if actual then Status.reassigned else Status.assigned
    dueDate := match req.dueDate with
      | some d => if d = 0 then p.dueDate else some d
      | none => p.dueDate
    adminNotes := match req.notes with
      | some n => if n = "" then p.adminNotes else some n
      | none => p.adminNotes
    editorDeadlineHours := hours
    editorDeadline := some (now + hours * 60 * 60 * 1000)
    isEditorDeadlineExceeded := false }
  let newComments := match req.comments with
    | some c =>
      if c = "" then p1.adminComments
      else p1.adminComments ++
        [{ comment := some c, date := now
           ctype := if actual then CommentType.reassignment
                    else CommentType.assignment }]
    | none => p1.adminComments
  let p2 := { p1 with adminComments := newComments }
  addTimelineEntry p2
    (if actual then
       "Project reassigned to " ++ editorName ++
         (match prevName with
          | some pn => " (from " ++ pn ++ ")"
          | none => "")
     else "Project assigned to " ++ editorName)
    (some adminId)
    (jsOrStr req.comments (jsOrStr req.notes "")) now

/-- The status of a handler result, when it succeeded. -/
def statusOf (r : Except Err Project) : Option Status :=
  r.toOption.map (fun q => q.status)

/-- The timeline length of a handler result, when it succeeded. -/
def timelineLenOf (r : Except Err Project) : Option Nat :=
  r.toOption.map (fun q => q.timeline.length)

/-- The exceeded-latch flag of a handler result, when it succeeded. -/
def flagOf (r : Except Err Project) : Option Bool :=
  r.toOption.map (fun q => q.isEditorDeadlineExceeded)

/-- The list of version numbers of a handler result, when it succeeded. -/
def versionNumsOf (r : Except Err Project) : Option (List Nat) :=
  r.toOption.map (fun q => q.editedVersions.map (fun v => v.version))

/-- Modelled from the spec: "max(existing numbers, default 0)" of the
Version Registry (the code never computes this expression directly; it is
the yardstick the upload handler's numbering is compared against). -/
def maxVersionNumber (p : Project) : Nat :=
  (p.editedVersions.map (fun v => v.version)).foldl max 0

/-- A sample project used by concrete witnesses: completed, editor 7,
empty ledgers. -/
def sampleProject : Project :=
  { status := Status.completed
    progress := 50
    assignedEditor := some 7
    assignedDate := some 0
    editorDeadlineHours := 24
    editorDeadline := some 86400000
    isEditorDeadlineExceeded := false
    editedVersions := []
    clientFeedback := []
    timeline := []
    adminComments := []
    adminNotes := none
    dueDate := none
    publicId := "CE1" }

/-- A sample feedback request body. -/
def fbReq (st : FeedbackStatus) (sat : Option Bool) (re : Bool) :
    FeedbackReq :=
  { feedback := "great work", status := st, version := none, rating := none,
    satisfied := sat, reEditRequested := re, reEditComments := none }

/-- The sample project in `approved` status. -/
def approvedProject : Project := { sampleProject with status := Status.approved }

/-- The sample project in `delivered` status (a terminal state, outside
every source-state set of the spec's transition table rows that gate on
the source). -/
def deliveredProject : Project :=
  { sampleProject with status := Status.delivered }

/-- An uploaded-file metadata sample. -/
def sampleFile : FileInfo := { originalname := "cut.mp4" }

/-- An object-store result sample. -/
def sampleDrive : DriveUpload := { id := "f1", webViewLink := "u1" }

/-- An assignment request sample: reassignment flag set, editor 9, 48h. -/
def sampleAssign : AssignReq :=
  { editorId := 9, notes := none, dueDate := none, comments := none,
    isReassignment := true, deadlineHours := some 48 }

/-- A project whose editor deadline (t=100) is in the past while work is
still in progress. -/
def lateProject : Project :=
  { sampleProject with
    status := Status.in_progress
    editorDeadline := some 100 }

/-- A project with a set editorDeadline but no assignedEditor: the state
separating the code's deadline check from the spec's wording of it. -/
def unassignedLateProject : Project :=
  { sampleProject with
    status := Status.assigned
    assignedEditor := none
    editorDeadline := some 100 }

/-- The sample project in `uploaded` status (before any assignment). -/
def uploadedProject : Project :=
  { sampleProject with status := Status.uploaded }

/-- A version entry with a given number. -/
def mkVer (n : Nat) : Version :=
  { version := n, filename := "v", driveFileId := "d", driveFileUrl := "u",
    notes := "", status := VersionStatus.pending }

/-- A project whose versions array was stored out of order: [3, 1, 2]. -/
def outOfOrderProject : Project :=
  { sampleProject with editedVersions := [mkVer 3, mkVer 1, mkVer 2] }

theorem foldl_pickLater_mem (vs : List Version) (init : Version) :
    vs.foldl pickLater init = init ∨ vs.foldl pickLater init ∈ vs := by
  induction vs generalizing init with
  | nil => exact Or.inl rfl
  | cons v vs ih =>
    simp only [List.foldl_cons]
    rcases ih (pickLater init v) with h | h
    · rw [h]
      unfold pickLater
      split
      · exact Or.inr (List.mem_cons_self _ _)
      · exact Or.inl rfl
    · exact Or.inr (List.mem_cons_of_mem _ h)

theorem foldl_pickLater_ge_init (vs : List Version) (init : Version) :
    init.version ≤ (vs.foldl pickLater init).version := by
  induction vs generalizing init with
  | nil => exact le_refl _
  | cons v vs ih =>
    simp only [List.foldl_cons]
    refine le_trans ?_ (ih (pickLater init v))
    unfold pickLater
    split
    · omega
    · exact le_refl _

theorem foldl_pickLater_ge_mem (vs : List Version) (init w : Version)
    (hw : w ∈ vs) : w.version ≤ (vs.foldl pickLater init).version := by
  induction vs generalizing init with
  | nil => cases hw
  | cons v vs ih =>
    simp only [List.foldl_cons]
    rcases List.mem_cons.mp hw with h | h
    · subst h
      refine le_trans ?_ (foldl_pickLater_ge_init vs (pickLater init w))
      unfold pickLater
      split <;> omega
    · exact ih (pickLater init v) h

theorem le_foldl_max (l : List Nat) (a : Nat) : a ≤ l.foldl max a := by
  induction l generalizing a with
  | nil => exact le_refl _
  | cons x l ih =>
    simp only [List.foldl_cons]
    exact le_trans (le_max_left a x) (ih (max a x))

theorem mem_le_foldl_max (l : List Nat) (a x : Nat) (hx : x ∈ l) :
    x ≤ l.foldl max a := by
  induction l generalizing a with
  | nil => cases hx
  | cons y l ih =>
    simp only [List.foldl_cons]
    rcases List.mem_cons.mp hx with h | h
    · subst h
      exact le_trans (le_max_right a x) (le_foldl_max l (max a x))
    · exact ih (max a y) h

theorem foldl_max_le (l : List Nat) (a b : Nat) (ha : a ≤ b)
    (h : ∀ x ∈ l, x ≤ b) : l.foldl max a ≤ b := by
  induction l generalizing a with
  | nil => exact ha
  | cons x l ih =>
    simp only [List.foldl_cons]
    refine ih (max a x) (max_le ha (h x (List.mem_cons_self _ _))) ?_
    exact fun y hy => h y (List.mem_cons_of_mem _ hy)

theorem getLatestVersion_version_eq_max (p : Project) (v : Version)
    (h : getLatestVersion p = some v) : v.version = maxVersionNumber p := by
  unfold getLatestVersion at h
  unfold maxVersionNumber
  cases hvs : p.editedVersions with
  | nil => rw [hvs] at h; cases h
  | cons w ws =>
    rw [hvs] at h
    simp only [Option.some.injEq] at h
    subst h
    apply le_antisymm
    · apply mem_le_foldl_max
      rcases foldl_pickLater_mem ws w with hm | hm

      · rw [hm]; exact List.mem_map_of_mem _ (List.mem_cons_self _ _)
      · exact List.mem_map_of_mem _ (List.mem_cons_of_mem _ hm)
    · refine foldl_max_le _ _ _ (Nat.zero_le _) ?_
      intro x hx
      rcases List.mem_map.mp hx with ⟨u, hu, rfl⟩
      rcases List.mem_cons.mp hu with h | h
      · subst h; exact foldl_pickLater_ge_init ws u
      · exact foldl_pickLater_ge_mem ws w u h

theorem nextVersionNumber_eq_max_succ (p : Project) :
    nextVersionNumber p = maxVersionNumber p + 1 := by
  unfold nextVersionNumber
  cases hlv : getLatestVersion p with
  | none =>
    unfold getLatestVersion at hlv
    unfold maxVersionNumber
    cases hvs : p.editedVersions with
    | nil => rfl
    | cons w ws => rw [hvs] at hlv; cases hlv
  | some v =>
    show v.version + 1 = maxVersionNumber p + 1
    rw [getLatestVersion_version_eq_max p v hlv]


/-- Claim C1: a client feedback submission on a project whose status is
`approved` or `completed` routes the project's status by the feedback's
fields — status approved with satisfied true yields `delivered`; status
revision_requested with reEditRequested yields `client_reedit`; status
revision_requested without reEditRequested yields `revision_requested` —
while a submission on any other project status is rejected with an
invalid-state error, producing no updated project. -/
theorem submitFeedback_status_routing (p : Project) (req : FeedbackReq)
    (now : Nat) :
    ((p.status = Status.approved ∨ p.status = Status.completed) →
        (req.status = FeedbackStatus.approved → truthy req.satisfied = true →
          statusOf (submitFeedback p req now) = some Status.delivered)
      ∧ (req.status = FeedbackStatus.revision_requested →
          req.reEditRequested = true →
          statusOf (submitFeedback p req now) = some Status.client_reedit)
      ∧ (req.status = FeedbackStatus.revision_requested →
          req.reEditRequested = false →
          statusOf (submitFeedback p req now) = some Status.revision_requested))
  ∧ (p.status ≠ Status.approved → p.status ≠ Status.completed →
      submitFeedback p req now = Except.error Err.invalidState) := by
  constructor
  · intro hp
    have hmem : p.status ∈ [Status.approved, Status.completed] := by
      rcases hp with h | h <;> simp [h]
    refine ⟨?_, ?_, ?_⟩ <;> intro h1 h2 <;>
      simp [submitFeedback, statusOf, Except.toOption, addTimelineEntry,
        hmem, h1, h2]
  · intro h1 h2
    have hmem : p.status ∉ [Status.approved, Status.completed] := by
      simp [h1, h2]
    simp [submitFeedback, hmem]

/-- Witness for C1: the three routings at concrete feedback bodies on an
approved project, and the rejection on a delivered project. -/
theorem submitFeedback_status_routing_witness :
    statusOf (submitFeedback approvedProject
        (fbReq FeedbackStatus.approved (some true) false) 5)
      = some Status.delivered
  ∧ statusOf (submitFeedback approvedProject
        (fbReq FeedbackStatus.revision_requested none true) 5)
      = some Status.client_reedit
  ∧ statusOf (submitFeedback approvedProject
        (fbReq FeedbackStatus.revision_requested none false) 5)
      = some Status.revision_requested
  ∧ submitFeedback deliveredProject
        (fbReq FeedbackStatus.approved (some true) false) 5
      = Except.error Err.invalidState := by
  refine ⟨?_, ?_, ?_, ?_⟩
  · exact ((submitFeedback_status_routing approvedProject _ 5).1
      (Or.inl rfl)).1 rfl rfl
  · exact ((submitFeedback_status_routing approvedProject _ 5).1
      (Or.inl rfl)).2.1 rfl rfl
  · exact ((submitFeedback_status_routing approvedProject _ 5).1
      (Or.inl rfl)).2.2 rfl rfl
  · exact (submitFeedback_status_routing deliveredProject _ 5).2
      (by decide) (by decide)

/-- Claim C10: on a project in approved/completed status, feedback with
status approved whose satisfied field is not true (absent or false) never
yields `delivered`; it is routed to the revision branch — `client_reedit`
when reEditRequested, `revision_requested` otherwise. -/
theorem submitFeedback_unsatisfied_approval (p : Project) (req : FeedbackReq)
    (now : Nat) :
    (p.status = Status.approved ∨ p.status = Status.completed) →
    req.status = FeedbackStatus.approved → truthy req.satisfied = false →
      statusOf (submitFeedback p req now) ≠ some Status.delivered
    ∧ statusOf (submitFeedback p req now) =
        some (if req.reEditRequested then Status.client_reedit
              else Status.revision_requested) := by
  intro hp h1 h2
  have hmem : p.status ∈ [Status.approved, Status.completed] := by
    rcases hp with h | h <;> simp [h]
  cases hre : req.reEditRequested <;>
    simp [submitFeedback, statusOf, Except.toOption, addTimelineEntry,
      hmem, h1, h2, hre]

/-- Witness for C10: approved-but-unsatisfied feedback on an approved
project goes to the revision branch, not to delivered. -/
theorem submitFeedback_unsatisfied_approval_witness :
    statusOf (submitFeedback approvedProject
        (fbReq FeedbackStatus.approved (some false) false) 5)
      ≠ some Status.delivered
  ∧ statusOf (submitFeedback approvedProject
        (fbReq FeedbackStatus.approved (some false) false) 5)
      = some (if (fbReq FeedbackStatus.approved (some false) false).reEditRequested
              then Status.client_reedit else Status.revision_requested) :=
  submitFeedback_unsatisfied_approval approvedProject _ 5 (Or.inl rfl) rfl rfl

/-- Claim C2: an admin review of a project whose status is not `completed`
fails with an invalid-state error and produces no updated project; on a
completed project, approve sets `approved`, request_revision sets
`revision_requested`, reassign leaves the status unchanged, and each
action appends exactly one adminComment and one timeline entry. -/
theorem reviewProject_gate_and_actions (p : Project) (adminId : Nat)
    (action : ReviewAction) (notes : Option String) (now : Nat) :
    (p.status ≠ Status.completed →
      reviewProject p adminId action notes now = Except.error Err.invalidState)
  ∧ (p.status = Status.completed →
      (reviewProject p adminId action notes now).toOption.map
          (fun q => (q.status, q.adminComments.length, q.timeline.length))
        = some
          ((match action with
            | ReviewAction.approve => Status.approved
            | ReviewAction.request_revision => Status.revision_requested
            | ReviewAction.reassign => p.status),
           p.adminComments.length + 1, p.timeline.length + 1)) := by
  constructor
  · intro h
    simp [reviewProject, h]
  · intro h
    cases action <;>
      simp [reviewProject, addTimelineEntry, Except.toOption, h]

/-- Witness for C2: the rejection on an approved project and the three
actions on a completed project with empty ledgers. -/
theorem reviewProject_gate_and_actions_witness :
    reviewProject approvedProject 1 ReviewAction.approve none 0
      = Except.error Err.invalidState
  ∧ (reviewProject sampleProject 1 ReviewAction.approve none 0).toOption.map
        (fun q => (q.status, q.adminComments.length, q.timeline.length))
      = some (Status.approved, 1, 1)
  ∧ (reviewProject sampleProject 1 ReviewAction.request_revision
        (some "fix") 0).toOption.map
        (fun q => (q.status, q.adminComments.length, q.timeline.length))
      = some (Status.revision_requested, 1, 1)
  ∧ (reviewProject sampleProject 1 ReviewAction.reassign none 0).toOption.map
        (fun q => (q.status, q.adminComments.length, q.timeline.length))
      = some (Status.completed, 1, 1) := by
  refine ⟨?_, ?_, ?_, ?_⟩
  · exact (reviewProject_gate_and_actions approvedProject 1
      ReviewAction.approve none 0).1 (by decide)
  · exact (reviewProject_gate_and_actions sampleProject 1
      ReviewAction.approve none 0).2 rfl
  · exact (reviewProject_gate_and_actions sampleProject 1
      ReviewAction.request_revision (some "fix") 0).2 rfl
  · exact (reviewProject_gate_and_actions sampleProject 1
      ReviewAction.reassign none 0).2 rfl


/-- Counterexample to claim C3: the code never consults the current
(source) status of the project.  A project in `uploaded` status — outside
the claim's source set {assigned, reassigned, in_progress,
revision_in_progress} — still has an editor status update applied: the
status mutates to the requested target and a timeline entry is appended,
where the claim requires rejection without mutation. -/
theorem updateProjectStatus_ignores_source :
    uploadedProject.status = Status.uploaded
  ∧ uploadedProject.status ∉
      [Status.assigned, Status.reassigned, Status.in_progress,
       Status.revision_in_progress]
  ∧ statusOf (updateProjectStatus uploadedProject 7 Status.in_progress
        none none 0) = some Status.in_progress
  ∧ timelineLenOf (updateProjectStatus uploadedProject 7 Status.in_progress
        none none 0) = some 1 := by
  refine ⟨rfl, by decide, rfl, rfl⟩

/-- Claim C3 amended: an editor status update is accepted exactly when the
requested target status lies in {assigned, in_progress, completed,
revision_in_progress} and the requester is the assigned editor; the
project's current (source) status is not checked.  A target outside the
set is rejected with a validation error and a non-assigned editor with a
not-found error, in both cases producing no updated project. -/
theorem updateProjectStatus_target_gate (p : Project) (editorId : Nat)
    (target : Status) (progress : Option Int) (notes : Option String)
    (now : Nat) :
    (target ∉ validStatuses →
      updateProjectStatus p editorId target progress notes now
        = Except.error Err.validation)
  ∧ (target ∈ validStatuses → p.assignedEditor ≠ some editorId →
      updateProjectStatus p editorId target progress notes now
        = Except.error Err.notFound)
  ∧ (target ∈ validStatuses → p.assignedEditor = some editorId →
        statusOf (updateProjectStatus p editorId target progress notes now)
          = some target
      ∧ timelineLenOf (updateProjectStatus p editorId target progress notes now)
          = some (p.timeline.length + 1)) := by
  refine ⟨?_, ?_, ?_⟩
  · intro h
    simp [updateProjectStatus, h]
  · intro h1 h2
    simp [updateProjectStatus, h1, h2]
  · intro h1 h2
    cases progress <;>
      simp [updateProjectStatus, statusOf, timelineLenOf, Except.toOption,
        addTimelineEntry, h1, h2]

/-- Witness for C3 (amended): a rejected target, a rejected editor, and an
accepted update at concrete inputs. -/
theorem updateProjectStatus_target_gate_witness :
    updateProjectStatus sampleProject 7 Status.delivered none none 0
      = Except.error Err.validation
  ∧ updateProjectStatus sampleProject 8 Status.in_progress none none 0
      = Except.error Err.notFound
  ∧ statusOf (updateProjectStatus sampleProject 7 Status.in_progress
        none none 0)
      = some Status.in_progress := by
  refine ⟨?_, ?_, ?_⟩
  · exact (updateProjectStatus_target_gate sampleProject 7 Status.delivered
      none none 0).1 (by decide)
  · exact (updateProjectStatus_target_gate sampleProject 8 Status.in_progress
      none none 0).2.1 (by decide) (by decide)
  · exact ((updateProjectStatus_target_gate sampleProject 7 Status.in_progress
      none none 0).2.2 (by decide) rfl).1

/-- Counterexample to claim C4: (delivered, editor status update) is an
invalid (sourceState, trigger) pair of the spec's table, yet the code
changes the state and appends a timeline entry for it. -/
theorem invalid_pair_still_logs :
    deliveredProject.status ∉
      [Status.assigned, Status.reassigned, Status.in_progress,
       Status.revision_in_progress]
  ∧ statusOf (updateProjectStatus deliveredProject 7 Status.completed
        none none 0) = some Status.completed
  ∧ timelineLenOf (updateProjectStatus deliveredProject 7 Status.completed
        none none 0) = some (deliveredProject.timeline.length + 1) := by
  refine ⟨by decide, rfl, rfl⟩


/-- Claim C4 amended: every transition the code accepts appends exactly one
timeline entry in the same operation as the status change, and every
transition the code rejects (feedback outside approved/completed, review
outside completed, editor update with an invalid target, upload on Drive
failure) produces no updated project and hence no entry; however the
editor status-update trigger is target-gated only — its source-state
column of the spec's table is not enforced (see the counterexample). -/
theorem transitions_log_exactly_once (p : Project) (req : FeedbackReq)
    (adminId : Nat) (action : ReviewAction) (rnotes : Option String)
    (editorId : Nat) (target : Status) (progress : Option Int)
    (unotes : Option String) (f : FileInfo) (d : DriveUpload)
    (areq : AssignReq) (ename : String) (pname : Option String) (now : Nat) :
    ((p.status = Status.approved ∨ p.status = Status.completed) →
        timelineLenOf (submitFeedback p req now) = some (p.timeline.length + 1))
  ∧ (p.status ≠ Status.approved → p.status ≠ Status.completed →
        submitFeedback p req now = Except.error Err.invalidState)
  ∧ (p.status = Status.completed →
        timelineLenOf (reviewProject p adminId action rnotes now)
          = some (p.timeline.length + 1))
  ∧ (p.status ≠ Status.completed →
        reviewProject p adminId action rnotes now
          = Except.error Err.invalidState)
  ∧ (target ∈ validStatuses → p.assignedEditor = some editorId →
        timelineLenOf (updateProjectStatus p editorId target progress unotes now)
          = some (p.timeline.length + 1))
  ∧ (target ∉ validStatuses →
        updateProjectStatus p editorId target progress unotes now
          = Except.error Err.validation)
  ∧ (p.assignedEditor = some editorId →
        timelineLenOf (uploadEditedVersion p editorId (some f) unotes (some d) now)
          = some (p.timeline.length + 1))
  ∧ (p.assignedEditor = some editorId →
        uploadEditedVersion p editorId (some f) unotes none now
          = Except.error Err.dependency)
  ∧ (assignProjectToEditor p adminId areq ename pname now).timeline.length
      = p.timeline.length + 1 := by
  refine ⟨?_, ?_, ?_, ?_, ?_, ?_, ?_, ?_, ?_⟩
  · intro hp
    have hmem : p.status ∈ [Status.approved, Status.completed] := by
      rcases hp with h | h <;> simp [h]
    rcases hs : req.status <;> cases hsat : truthy req.satisfied <;>
      cases hre : req.reEditRequested <;>
      simp [submitFeedback, timelineLenOf, Except.toOption, addTimelineEntry,
        hmem, hs, hsat, hre]
  · intro h1 h2
    have hmem : p.status ∉ [Status.approved, Status.completed] := by
      simp [h1, h2]
    simp [submitFeedback, hmem]
  · intro h
    cases action <;>
      simp [reviewProject, addTimelineEntry, timelineLenOf, Except.toOption, h]
  · intro h
    simp [reviewProject, h]
  · intro h1 h2
    cases progress <;>
      simp [updateProjectStatus, timelineLenOf, Except.toOption,
        addTimelineEntry, h1, h2]
  · intro h
    simp [updateProjectStatus, h]
  · intro h
    simp [uploadEditedVersion, timelineLenOf, Except.toOption,
      addTimelineEntry, h]
  · intro h
    simp [uploadEditedVersion, h]
  · rcases hc : areq.comments with _ | c
    · simp [assignProjectToEditor, addTimelineEntry, hc]
    · by_cases hce : c = "" <;>
        simp [assignProjectToEditor, addTimelineEntry, hc, hce]

/-- Witness for C4 (amended): one appended entry for a concrete feedback,
review, upload and assignment on projects with empty timelines. -/
theorem transitions_log_exactly_once_witness :
    timelineLenOf (submitFeedback approvedProject
        (fbReq FeedbackStatus.approved (some true) false) 5) = some 1
  ∧ timelineLenOf (reviewProject sampleProject 1 ReviewAction.approve none 0)
      = some 1
  ∧ timelineLenOf (uploadEditedVersion sampleProject 7 (some sampleFile)
        none (some sampleDrive) 0) = some 1
  ∧ (assignProjectToEditor sampleProject 1 sampleAssign "Bob" none
        1000).timeline.length = 1 := by
  refine ⟨?_, ?_, ?_, ?_⟩
  · exact (transitions_log_exactly_once approvedProject
      (fbReq FeedbackStatus.approved (some true) false) 1 ReviewAction.approve
      none 7 Status.completed none none sampleFile sampleDrive sampleAssign
      "Bob" none 5).1 (Or.inl rfl)
  · exact (transitions_log_exactly_once sampleProject
      (fbReq FeedbackStatus.approved (some true) false) 1 ReviewAction.approve
      none 7 Status.completed none none sampleFile sampleDrive sampleAssign
      "Bob" none 0).2.2.1 rfl
  · exact (transitions_log_exactly_once sampleProject
      (fbReq FeedbackStatus.approved (some true) false) 1 ReviewAction.approve
      none 7 Status.completed none none sampleFile sampleDrive sampleAssign
      "Bob" none 0).2.2.2.2.2.2.1 rfl
  · exact (transitions_log_exactly_once sampleProject
      (fbReq FeedbackStatus.approved (some true) false) 1 ReviewAction.approve
      none 7 Status.completed none none sampleFile sampleDrive sampleAssign
      "Bob" none 1000).2.2.2.2.2.2.2.2

/-- Claim C5: getLatestVersion is none exactly on an empty editedVersions
array; otherwise it returns an entry of the array whose version number is
maximal, regardless of insertion order — in particular [3, 1, 2] yields
number 3. -/
theorem getLatestVersion_is_max (p : Project) :
    (p.editedVersions = [] → getLatestVersion p = none)
  ∧ (p.editedVersions ≠ [] → (getLatestVersion p).isSome = true)
  ∧ (∀ v, getLatestVersion p = some v →
      v ∈ p.editedVersions ∧ ∀ w ∈ p.editedVersions, w.version ≤ v.version)
  ∧ (getLatestVersion outOfOrderProject).map (fun v => v.version) = some 3 := by
  refine ⟨?_, ?_, ?_, by decide⟩
  · intro h
    simp [getLatestVersion, h]
  · intro h
    cases hvs : p.editedVersions with
    | nil => exact absurd hvs h
    | cons w ws => simp [getLatestVersion, hvs]
  · intro v hv
    unfold getLatestVersion at hv
    cases hvs : p.editedVersions with
    | nil => rw [hvs] at hv; cases hv
    | cons w ws =>
      rw [hvs] at hv
      simp only [Option.some.injEq] at hv
      subst hv
      constructor
      · rcases foldl_pickLater_mem ws w with hm | hm
        · rw [hm]; exact List.mem_cons_self _ _
        · exact List.mem_cons_of_mem _ hm
      · intro u hu
        rcases List.mem_cons.mp hu with h | h
        · subst h; exact foldl_pickLater_ge_init ws u
        · exact foldl_pickLater_ge_mem ws w u h

/-- Witness for C5: none on an empty array; on versions stored as [3,1,2]
the result exists, is an entry of the array, and dominates every entry. -/
theorem getLatestVersion_is_max_witness :
    getLatestVersion sampleProject = none
  ∧ (getLatestVersion outOfOrderProject).isSome = true
  ∧ (mkVer 3 ∈ outOfOrderProject.editedVersions
      ∧ ∀ w ∈ outOfOrderProject.editedVersions,
          w.version ≤ (mkVer 3).version) := by
  refine ⟨?_, ?_, ?_⟩
  · exact (getLatestVersion_is_max sampleProject).1 rfl
  · exact (getLatestVersion_is_max outOfOrderProject).2.1 (by decide)
  · exact (getLatestVersion_is_max outOfOrderProject).2.2.1 (mkVer 3) rfl

/-- Claim C6: an accepted upload appends a version numbered
max(existing numbers, default 0) + 1, strictly above every existing
number (so numbers are unique and strictly increasing); and uploading
twice to a project with no versions yields numbers 1 then 2, after which
getLatestVersion returns number 2. -/
theorem uploadEditedVersion_numbering (p : Project) (editorId : Nat)
    (f : FileInfo) (notes : Option String) (d : DriveUpload) (now : Nat) :
    (p.assignedEditor = some editorId →
        versionNumsOf (uploadEditedVersion p editorId (some f) notes (some d) now)
          = some (p.editedVersions.map (fun v => v.version)
              ++ [maxVersionNumber p + 1])
      ∧ ∀ w ∈ p.editedVersions, w.version < maxVersionNumber p + 1)
  ∧ ((uploadEditedVersion sampleProject 7 (some sampleFile) none
          (some sampleDrive) 0).toOption.bind
        (fun q => (uploadEditedVersion q 7 (some sampleFile) none
          (some sampleDrive) 1).toOption)).map
        (fun q => (q.editedVersions.map (fun v => v.version),
                   (getLatestVersion q).map (fun v => v.version)))
      = some ([1, 2], some 2) := by
  constructor
  · intro h
    constructor
    · simp [uploadEditedVersion, versionNumsOf, Except.toOption,
        addTimelineEntry, h, nextVersionNumber_eq_max_succ]
    · intro w hw
      have h1 : w.version ≤ maxVersionNumber p :=
        mem_le_foldl_max _ _ _ (List.mem_map_of_mem _ hw)
      omega
  · rfl

/-- Witness for C6: the numbering equation instantiated on the project
with versions [3, 1, 2]. -/
theorem uploadEditedVersion_numbering_witness :
    versionNumsOf (uploadEditedVersion outOfOrderProject 7 (some sampleFile)
        none (some sampleDrive) 0)
      = some (outOfOrderProject.editedVersions.map (fun v => v.version)
          ++ [maxVersionNumber outOfOrderProject + 1]) :=
  ((uploadEditedVersion_numbering outOfOrderProject 7 sampleFile none
    sampleDrive 0).1 rfl).1


/-- Claim C7: an upload by the assigned editor whose object-store call
succeeds forces the project's status to completed and its progress to
100, recording exactly one more version; when the object-store call
fails, the handler returns a dependency error and no updated project — in
particular no version is recorded and status/progress are untouched. -/
theorem uploadEditedVersion_outcome (p : Project) (editorId : Nat)
    (f : FileInfo) (notes : Option String) (d : DriveUpload) (now : Nat)
    (h : p.assignedEditor = some editorId) :
    (uploadEditedVersion p editorId (some f) notes (some d) now).toOption.map
        (fun q => (q.status, q.progress, q.editedVersions.length))
      = some (Status.completed, 100, p.editedVersions.length + 1)
  ∧ uploadEditedVersion p editorId (some f) notes none now
      = Except.error Err.dependency := by
  constructor <;>
    simp [uploadEditedVersion, Except.toOption, addTimelineEntry, h]

/-- Witness for C7: both outcomes on an in-progress project assigned to
editor 7. -/
theorem uploadEditedVersion_outcome_witness :
    (uploadEditedVersion lateProject 7 (some sampleFile) none
        (some sampleDrive) 0).toOption.map
        (fun q => (q.status, q.progress, q.editedVersions.length))
      = some (Status.completed, 100, 1)
  ∧ uploadEditedVersion lateProject 7 (some sampleFile) none none 0
      = Except.error Err.dependency :=
  uploadEditedVersion_outcome lateProject 7 sampleFile none sampleDrive 0 rfl

/-- Counterexample to claim C8: a project with a set editorDeadline (100),
status assigned and now (200) past the deadline, but no assignedEditor —
the code's guard returns false where the claim's iff requires true. -/
theorem checkEditorDeadline_needs_editor :
    unassignedLateProject.editorDeadline = some 100
  ∧ unassignedLateProject.status = Status.assigned
  ∧ 100 < 200
  ∧ (checkEditorDeadline unassignedLateProject 200).1 = false := by
  refine ⟨rfl, rfl, by decide, rfl⟩

/-- Claim C8 amended: on a project with a set editorDeadline and a set
assignedEditor, checkEditorDeadline returns true iff now is past the
deadline and the status is in {assigned, reassigned, in_progress}; a true
return latches isEditorDeadlineExceeded; the latch is one-way — no call
to checkEditorDeadline and none of the feedback/review/status-update/
upload handlers ever clears a set flag — and only the assignment
operation (setDeadline) resets it to false. -/
theorem checkEditorDeadline_latch (p : Project) (now dl e : Nat)
    (hd : p.editorDeadline = some dl) (he : p.assignedEditor = some e) :
    ((checkEditorDeadline p now).1 = true ↔
      (dl < now ∧ p.status ∈ [Status.assigned, Status.reassigned,
        Status.in_progress]))
  ∧ ((checkEditorDeadline p now).1 = true →
      (checkEditorDeadline p now).2.isEditorDeadlineExceeded = true)
  ∧ (∀ (q : Project) (m : Nat), q.isEditorDeadlineExceeded = true →
      (checkEditorDeadline q m).2.isEditorDeadlineExceeded = true)
  ∧ (∀ (q : Project) (req : FeedbackReq) (m : Nat),
      q.isEditorDeadlineExceeded = true →
      flagOf (submitFeedback q req m) ≠ some false)
  ∧ (∀ (q : Project) (a : Nat) (act : ReviewAction) (ns : Option String)
        (m : Nat), q.isEditorDeadlineExceeded = true →
      flagOf (reviewProject q a act ns m) ≠ some false)
  ∧ (∀ (q : Project) (ed : Nat) (t : Status) (pr : Option Int)
        (ns : Option String) (m : Nat), q.isEditorDeadlineExceeded = true →
      flagOf (updateProjectStatus q ed t pr ns m) ≠ some false)
  ∧ (∀ (q : Project) (ed : Nat) (fl : Option FileInfo) (ns : Option String)
        (dr : Option DriveUpload) (m : Nat),
      q.isEditorDeadlineExceeded = true →
      flagOf (uploadEditedVersion q ed fl ns dr m) ≠ some false)
  ∧ (∀ (q : Project) (a : Nat) (req : AssignReq) (en : String)
        (pn : Option String) (m : Nat),
      (assignProjectToEditor q a req en pn m).isEditorDeadlineExceeded
        = false) := by
  have hfst : (checkEditorDeadline p now).1
      = decide (now > dl ∧ p.status ∈ [Status.assigned, Status.reassigned,
          Status.in_progress]) := by
    simp only [checkEditorDeadline, hd, he]
    split <;> rfl
  refine ⟨?_, ?_, ?_, ?_, ?_, ?_, ?_, ?_⟩
  · rw [hfst]
    simp [decide_eq_true_iff]
  · intro ht
    have hb : decide (now > dl ∧ p.status ∈ [Status.assigned,
        Status.reassigned, Status.in_progress]) = true := hfst.symm.trans ht
    simp only [checkEditorDeadline, hd, he]
    split
    · rfl
    · rename_i hcond
      rw [hb] at hcond
      simpa using hcond
  · intro q m hq
    rcases hqd : q.editorDeadline with _ | dq <;>
      rcases hqe : q.assignedEditor with _ | eq2 <;>
      simp [checkEditorDeadline, hqd, hqe, hq]
  · intro q req m hq
    by_cases hmem : q.status ∈ [Status.approved, Status.completed]
    · rcases hs : req.status <;> cases hsat : truthy req.satisfied <;>
        cases hre : req.reEditRequested <;>
        simp [submitFeedback, flagOf, Except.toOption, addTimelineEntry,
          hmem, hs, hsat, hre, hq]
    · simp [submitFeedback, flagOf, Except.toOption, hmem]
  · intro q a act ns m hq
    by_cases hs : q.status = Status.completed
    · cases act <;>
        simp [reviewProject, flagOf, Except.toOption, addTimelineEntry,
          hs, hq]
    · simp [reviewProject, flagOf, Except.toOption, hs]
  · intro q ed t pr ns m hq
    by_cases h1 : t ∈ validStatuses
    · by_cases h2 : q.assignedEditor = some ed
      · cases pr <;>
          simp [updateProjectStatus, flagOf, Except.toOption,
            addTimelineEntry, h1, h2, hq]
      · simp [updateProjectStatus, flagOf, Except.toOption, h1, h2]
    · simp [updateProjectStatus, flagOf, Except.toOption, h1]
  · intro q ed fl ns dr m hq
    rcases fl with _ | f2
    · simp [uploadEditedVersion, flagOf, Except.toOption]
    · by_cases h2 : q.assignedEditor = some ed
      · rcases dr with _ | d2 <;>
          simp [uploadEditedVersion, flagOf, Except.toOption,
            addTimelineEntry, h2, hq]
      · simp [uploadEditedVersion, flagOf, Except.toOption, h2]
  · intro q a req en pn m
    rcases hc : req.comments with _ | c
    · simp [assignProjectToEditor, addTimelineEntry, hc]
    · by_cases hce : c = "" <;>
        simp [assignProjectToEditor, addTimelineEntry, hc, hce]

/-- Witness for C8 (amended): a project one hour past its deadline while
in progress — the check returns true and latches the flag. -/
theorem checkEditorDeadline_latch_witness :
    (checkEditorDeadline lateProject 200).1 = true
  ∧ (checkEditorDeadline lateProject 200).2.isEditorDeadlineExceeded
      = true := by
  have h := checkEditorDeadline_latch lateProject 200 100 7 rfl rfl
  have ht : (checkEditorDeadline lateProject 200).1 = true :=
    h.1.mpr (by decide)
  exact ⟨ht, h.2.1 ht⟩

/-- Claim C9: an assignment yields status reassigned exactly when the
request declares isReassignment and a previously assigned editor differs
from the new one; with the flag absent, the same editor, or no prior
editor the status is assigned; in all cases assignedDate becomes now,
editorDeadline is recomputed as now + editorDeadlineHours (deadlineHours
defaulted to 24), and isEditorDeadlineExceeded is reset to false. -/
theorem assignProjectToEditor_spec (p : Project) (adminId : Nat)
    (req : AssignReq) (en : String) (pn : Option String) (now : Nat) :
    (req.isReassignment = false →
      (assignProjectToEditor p adminId req en pn now).status = Status.assigned)
  ∧ (p.assignedEditor = none →
      (assignProjectToEditor p adminId req en pn now).status = Status.assigned)
  ∧ (p.assignedEditor = some req.editorId →
      (assignProjectToEditor p adminId req en pn now).status = Status.assigned)
  ∧ (∀ prev, req.isReassignment = true → p.assignedEditor = some prev →
      prev ≠ req.editorId →
      (assignProjectToEditor p adminId req en pn now).status
        = Status.reassigned)
  ∧ (assignProjectToEditor p adminId req en pn now).assignedDate = some now
  ∧ (assignProjectToEditor p adminId req en pn now).editorDeadlineHours
      = jsOrNat req.deadlineHours 24
  ∧ (assignProjectToEditor p adminId req en pn now).editorDeadline
      = some (now +
          (assignProjectToEditor p adminId req en pn now).editorDeadlineHours
            * 60 * 60 * 1000)
  ∧ (assignProjectToEditor p adminId req en pn now).isEditorDeadlineExceeded
      = false := by
  refine ⟨?_, ?_, ?_, ?_, ?_, ?_, ?_, ?_⟩
  · intro h
    simp [assignProjectToEditor, addTimelineEntry, isActualReassignment, h]
  · intro h
    simp [assignProjectToEditor, addTimelineEntry, isActualReassignment, h]
  · intro h
    simp [assignProjectToEditor, addTimelineEntry, isActualReassignment, h]
  · intro prev h1 h2 h3
    simp [assignProjectToEditor, addTimelineEntry, isActualReassignment,
      h1, h2, h3]
  · simp [assignProjectToEditor, addTimelineEntry]
  · simp [assignProjectToEditor, addTimelineEntry]
  · simp [assignProjectToEditor, addTimelineEntry]
  · simp [assignProjectToEditor, addTimelineEntry]

/-- Witness for C9: a genuine reassignment (editor 7 → 9, flag set), the
flag-absent and same-editor cases, and the date/deadline/latch fields at
now = 1000 with 48 deadline hours. -/
theorem assignProjectToEditor_spec_witness :
    (assignProjectToEditor sampleProject 1 sampleAssign "Bob" (some "Al")
        1000).status = Status.reassigned
  ∧ (assignProjectToEditor sampleProject 1
        { sampleAssign with isReassignment := false } "Bob" none 1000).status
      = Status.assigned
  ∧ (assignProjectToEditor sampleProject 1
        { sampleAssign with editorId := 7 } "Bob" none 1000).status
      = Status.assigned
  ∧ (assignProjectToEditor sampleProject 1 sampleAssign "Bob" none
        1000).assignedDate = some 1000
  ∧ (assignProjectToEditor sampleProject 1 sampleAssign "Bob" none
        1000).editorDeadline
      = some (1000 + 48 * 60 * 60 * 1000)
  ∧ (assignProjectToEditor sampleProject 1 sampleAssign "Bob" none
        1000).isEditorDeadlineExceeded = false := by
  refine ⟨?_, ?_, ?_, ?_, ?_, ?_⟩
  · exact (assignProjectToEditor_spec sampleProject 1 sampleAssign "Bob"
      (some "Al") 1000).2.2.2.1 7 rfl rfl (by decide)
  · exact (assignProjectToEditor_spec sampleProject 1
      { sampleAssign with isReassignment := false } "Bob" none 1000).1 rfl
  · exact (assignProjectToEditor_spec sampleProject 1
      { sampleAssign with editorId := 7 } "Bob" none 1000).2.2.1 rfl
  · exact (assignProjectToEditor_spec sampleProject 1 sampleAssign "Bob"
      none 1000).2.2.2.2.1
  · exact (assignProjectToEditor_spec sampleProject 1 sampleAssign "Bob"
      none 1000).2.2.2.2.2.2.1
  · exact (assignProjectToEditor_spec sampleProject 1 sampleAssign "Bob"
      none 1000).2.2.2.2.2.2.2

end CtrlE
